import Mathlib

set_option maxRecDepth 16384

/-!
Verification development for the Kayak closed-loop RPC benchmark client.

The embedding below is a shallow model of the two client binaries:

* `src/splinter/src/bin/client/pushback.rs` — the PUSHBACK workload generator
  (`Pushback`), the per-core send/receive/step loop (`PushbackRecvSend` with its
  methods `send`, `recv`, `execute_task`), and the statistics printed on `Drop`.
* `src/db/src/bin/client/main.rs` — the request generator, of which we embed
  `RequestGenerator::fixup_header_length_fields`.

Machine integers are modelled as `Nat` with explicit reduction modulo `2^64`
(respectively `2^16`, `2^8`) exactly where the Rust code can wrap: release-mode
`u64` subtraction wraps, so `a - b - c` on stamps is modelled with `u64sub`.
Rust operations that panic (`unwrap` on a missing map entry, out-of-bounds
indexing and slicing) are modelled by `Option`-valued functions returning
`none`.

The per-core loop state is the structure `PushbackRecvSend`; its fields carry
the source field names. Two ghost fields (`inflight`, `followups`) and a ghost
cycle counter `clock` (standing for the strictly monotonic `cycles::rdtsc()`)
are added for specification purposes only; no code-modelled field update ever
reads them.

Components of this repository that the client calls but whose sources are not
under `src/` (the `splinter::manager::TaskManager` task abstraction,
`db::task::TaskState`, `db::cyclecounter::CycleCounter`) are modelled from the
spec, as marked on their declarations.
-/

/-- Number of operations performed by the extension in the native case
(`const NUM_OPS: u8 = 1`). -/
def NUM_OPS : Nat := 1

/-- Number of multiplications performed by the extension in the native case
(`const NUM_MUL: u64 = 1000`). -/
def NUM_MUL : Nat := 1000

/-- Wrapping 64-bit subtraction: the value of the Rust release-mode expression
`a - b` at type `u64` (== `2^64` written as a numeral). -/
def u64sub (a b : Nat) : Nat :=
  (a + (18446744073709551616 - b % 18446744073709551616)) % 18446744073709551616

/-- Association-list lookup keyed by `Nat`, modelling `HashMap::get`. -/
def lookupKey {α : Type} (k : Nat) : List (Nat × α) → Option α
  | [] => none
  | (k', v) :: rest => if k = k' then some v else lookupKey k rest

/-- Removal of the entry with key `k`, modelling `HashMap::remove`. -/
def eraseKey {α : Type} (k : Nat) : List (Nat × α) → List (Nat × α)
  | [] => []
  | (k', v) :: rest => if k = k' then rest else (k', v) :: eraseKey k rest

/-- Insertion that replaces any previous entry, modelling `HashMap::insert`. -/
def insertKey {α : Type} (k : Nat) (v : α) (l : List (Nat × α)) : List (Nat × α) :=
  (k, v) :: eraseKey k l

/-- Insert-if-absent, modelling `HashMap::entry(k).or_insert(v)`. -/
def orInsert {α : Type} (k : Nat) (v : α) (l : List (Nat × α)) : List (Nat × α) :=
  match lookupKey k l with
  | some _ => l
  | none => (k, v) :: l

/-- In-place update of the entry with key `k`, modelling
`HashMap::get_mut(k)` followed by a write through the reference. -/
def updateKey {α : Type} (k : Nat) (f : α → α) : List (Nat × α) → List (Nat × α)
  | [] => []
  | (k', v) :: rest => if k = k' then (k', f v) :: rest else (k', v) :: updateKey k f rest

/-- PushbackRecvSend::mul:
`fn mul(&self, init: u8, limit: u64) -> u64 { let mut mul = init as u64;
for i in 1..limit { mul *= i; } mul }`.
The iteration space `1..limit` is `1, …, limit - 1`; the accumulator is a
`u64`, so every multiplication is taken modulo `2^64`, and the initial cast
`init as u64` is modelled by the (value-preserving, since `init` is a byte)
reduction of the start value. -/
def mul (init limit : Nat) : Nat :=
  (List.range' 1 (limit - 1)).foldl
    (fun acc i => acc * i % 18446744073709551616)
    (init % 18446744073709551616)

/-- Workload operation returned by one draw of `Pushback::abc`: the benchmark
invokes exactly one of the two closures, with these arguments. -/
inductive WorkloadOp
  | get (tenant : Nat) (key : List Nat)
  | put (tenant : Nat) (key : List Nat) (value : List Nat)
deriving DecidableEq

/-- Struct `Pushback`.  The random sources (`rng`, `key_rng`, `tenant_rng`)
are seeded pseudo-random samplers; the model passes each drawn sample as an
argument of `abc` instead, so only the deterministic fields remain. -/
structure Pushback where
  put_pct : Nat
  key_buf : List Nat
  value_buf : List Nat
deriving DecidableEq

/-- Pushback::new: zero-filled buffers of the configured lengths
(`key_buf.resize(key_len, 0)`, `value_buf.resize(value_len, 0)`).  The
`n_keys`, `skew`, `n_tenants`, `tenant_skew` parameters only seed the Zipf
samplers, which the model replaces by the drawn samples themselves. -/
def Pushback.new (key_len value_len n_keys put_pct n_tenants : Nat) : Pushback :=
  { put_pct := put_pct,
    key_buf := List.replicate key_len 0,
    value_buf := List.replicate value_len 0 }

/-- The write `self.key_buf[0..4].copy_from_slice(&k)` where `k` is the
little-endian byte array of the sampled key index as a `u32`.  The remaining
bytes of the buffer are untouched.  (`copy_from_slice` would panic for
`key_len < 4`; the surrounding benchmark always configures longer keys.) -/
def writeKeyLE (buf : List Nat) (k : Nat) : List Nat :=
  [k % 256, k / 256 % 256, k / 65536 % 256, k / 16777216 % 256] ++ buf.drop 4

/-- Pushback::abc.  `r` is the draw `self.rng.gen::<u32>()`, `t` the tenant
sample and `k` the key sample.  The op is a get exactly when
`(r % 100) >= put_pct`:
`let is_get = (self.rng.gen::<u32>() % 100) >= self.put_pct as u32;`.
Only the first four key bytes change between calls and the rest of `key_buf`
stays zero, so the mutation of `key_buf` does not need to be threaded. -/
def Pushback.abc (w : Pushback) (r t k : Nat) : WorkloadOp :=
  let key := writeKeyLE w.key_buf k
  if w.put_pct ≤ r % 100 then WorkloadOp.get t key
  else WorkloadOp.put t key w.value_buf

/-- Predicate: the drawn operation is a get. -/
def isGetOp : WorkloadOp → Bool
  | WorkloadOp.get _ _ => true
  | WorkloadOp.put _ _ _ => false

/-- The client configuration fields the embedded code reads.  The skew
parameters only seed the Zipf samplers and are not part of the model. -/
structure ClientConfig where
  key_len : Nat
  value_len : Nat
  n_keys : Nat
  put_pct : Nat
  num_tenants : Nat
deriving DecidableEq

/-- The workload constructed by `PushbackRecvSend::new`:
`Pushback::new(config.key_len, config.value_len, config.n_keys,
0 /* config.put_pct */, config.skew, config.num_tenants, config.tenant_skew)`.
Note the put percentage argument is the literal `0`; `config.put_pct` is
commented out in the source. -/
def newWorkload (config : ClientConfig) : Pushback :=
  Pushback.new config.key_len config.value_len config.n_keys 0 config.num_tenants

/-- Modelled from the spec (section 4.5 and the TaskManager data model in
section 3): `splinter::manager::TaskManager` is outside the embedded sources.
We model the fields the client manipulates: the request id (the stamp under
which the task is filed in the pending map), whether the suspended generator
has been created (`create_generator`), and the read/write-set buffer populated
from pushback payloads (`update_rwset`). -/
structure TaskManager where
  id : Nat
  hasGenerator : Bool
  rwset : List Nat
deriving DecidableEq

/-- Modelled from the spec: `db::task::TaskState` is outside the embedded
sources; these are the three states `PushbackRecvSend::execute_task`
dispatches on. -/
inductive TaskState
  | YIELDED
  | WAITING
  | COMPLETED
deriving DecidableEq

/-- Per-core state of struct `PushbackRecvSend`, with the source field names.
The network endpoints (`receiver`, `sender`), the shared `master_service`, the
payload scratch buffers and the `master` flag do not influence the modelled
control flow and are omitted.  `cycle_total`/`cycle_count` model the
`CycleCounter` (outside `src/`; spec: total cycles and completed count whose
quotient is the reported average).  `clock` stands for the strictly monotonic
`cycles::rdtsc()` counter; `inflight` (stamps of sent requests whose terminal
response has not been processed) and `followups` (number of get()/put()
responses processed in invoke mode) are ghost fields used only by
specifications. -/
structure PushbackRecvSend where
  responses : Nat
  requests : Nat
  recvd : Nat
  sent : Nat
  native : Bool
  execution : Bool
  latencies : List Nat
  finished : Bool
  outstanding : Nat
  manager : List (Nat × TaskManager)
  waiting : List TaskManager
  pushback_completed : Nat
  cycle_total : Nat
  cycle_count : Nat
  native_state : List (Nat × Nat)
  stop : Nat
  clock : Nat
  inflight : List Nat
  followups : Nat
deriving DecidableEq

/-- The state built by `PushbackRecvSend::new` for given targets and flags
(`execution` records whether the crate was compiled with the "execution"
feature, consulted by `cfg!` in `execute_task`). -/
def initState (requests responses : Nat) (native execution : Bool) : PushbackRecvSend :=
  { responses := responses,
    requests := requests,
    recvd := 0,
    sent := 0,
    native := native,
    execution := execution,
    latencies := [],
    finished := false,
    outstanding := 0,
    manager := [],
    waiting := [],
    pushback_completed := 0,
    cycle_total := 0,
    cycle_count := 0,
    native_state := [],
    stop := 0,
    clock := 0,
    inflight := [] ,
    followups := 0 }

/-- One iteration of the body of the `while self.outstanding < 32` loop in
`PushbackRecvSend::send`: draw a cycle stamp `curr` (the ghost clock), then
either record the native request (`native_state.entry(curr).or_insert(1)`) or
file a `TaskManager` in the pending map (`add_request`, whose
`HashMap::insert` replaces any entry under the same stamp), send the packet,
and increment `outstanding` and `sent`. -/
def sendOne (s : PushbackRecvSend) : PushbackRecvSend :=
  let curr := s.clock
  if s.native then
    { s with
      native_state := orInsert curr 1 s.native_state,
      outstanding := s.outstanding + 1,
      sent := s.sent + 1,
      clock := s.clock + 1,
      inflight := curr :: s.inflight }
  else
    { s with
      manager := insertKey curr { id := curr, hasGenerator := false, rwset := [] } s.manager,
      outstanding := s.outstanding + 1,
      sent := s.sent + 1,
      clock := s.clock + 1,
      inflight := curr :: s.inflight }

/-- The `while self.outstanding < 32` loop of `PushbackRecvSend::send`.  Each
iteration of the body increments `outstanding` by one, so the loop runs for
exactly `32 - outstanding` iterations; that quantity is passed as the
structural recursion fuel, with the loop guard re-checked every iteration. -/
def sendLoop : Nat → PushbackRecvSend → PushbackRecvSend
  | 0, s => s
  | gap + 1, s => if s.outstanding < 32 then sendLoop gap (sendOne s) else s

/-- PushbackRecvSend::send.  The guard `if self.requests <= self.sent
{ return; }` is evaluated once, on entry; the loop itself only checks
`outstanding < 32`. -/
def send (s : PushbackRecvSend) : PushbackRecvSend :=
  if s.requests ≤ s.sent then s else sendLoop (32 - s.outstanding) s

/-- The `RpcStatus::StatusOk` arm of the `OpCode::SandstormInvokeRpc` match in
`PushbackRecvSend::recv` (invoke mode): bump `recvd`, push
`curr - stamp` as a latency sample, decrement `outstanding` (wrapping `u64`),
and `remove_request(stamp)`. -/
def recvInvokeOk (s : PushbackRecvSend) (stamp curr : Nat) : PushbackRecvSend :=
  { s with
    recvd := s.recvd + 1,
    latencies := s.latencies ++ [u64sub curr stamp],
    outstanding := u64sub s.outstanding 1,
    manager := eraseKey stamp s.manager,
    inflight := s.inflight.erase stamp }

/-- The `RpcStatus::StatusPushback` arm of the `OpCode::SandstormInvokeRpc`
match in `PushbackRecvSend::recv` (invoke mode): if the stamp is in the
pending map the task is removed, its generator created, the pushed-back
records installed and the task enqueued on the runnable queue; a missing stamp
is only logged (`info!("No manager with {} timestamp", …)`).  In either case
the code then pushes `rdtsc() - stamp` (a fresh cycle read, `curr2`) as a
latency sample, decrements `outstanding` and increments `recvd`. -/
def recvInvokePushback (s : PushbackRecvSend) (stamp : Nat) (records : List Nat)
    (curr2 : Nat) : PushbackRecvSend :=
  let s1 :=
    match lookupKey stamp s.manager with
    | some m =>
      { s with
        manager := eraseKey stamp s.manager,
        waiting := s.waiting ++ [{ m with hasGenerator := true, rwset := records }] }
    | none => s
  { s1 with
    latencies := s1.latencies ++ [u64sub curr2 stamp],
    outstanding := u64sub s1.outstanding 1,
    recvd := s1.recvd + 1,
    inflight := s1.inflight.erase stamp }

/-- The `OpCode::SandstormGetRpc` arm of `PushbackRecvSend::recv` in invoke
mode: push `curr - stamp` as a latency sample and, if the stamp is in the
pending map (a follow-up get issued by a pushed-back task), move that task to
the runnable queue.  Neither `recvd` nor `outstanding` changes; the ghost
`followups` counter records the sample. -/
def recvGetInvoke (s : PushbackRecvSend) (stamp curr : Nat) : PushbackRecvSend :=
  let s1 := { s with
    latencies := s.latencies ++ [u64sub curr stamp],
    followups := s.followups + 1 }
  match lookupKey stamp s.manager with
  | some m => { s1 with manager := eraseKey stamp s1.manager, waiting := s1.waiting ++ [m] }
  | none => s1

/-- The `OpCode::SandstormPutRpc` arm of `PushbackRecvSend::recv` in invoke
mode: push a latency sample only. -/
def recvPutInvoke (s : PushbackRecvSend) (stamp curr : Nat) : PushbackRecvSend :=
  { s with
    latencies := s.latencies ++ [u64sub curr stamp],
    followups := s.followups + 1 }

/-- The `OpCode::SandstormGetRpc` arm of `PushbackRecvSend::recv` in native
mode.  `let count = *self.native_state.borrow().get(&timestamp).unwrap();`
panics when the stamp has no entry (`none` here).  On the final step
(`count == NUM_OPS`) the code reads `p.get_payload()[0]` (panics on an empty
payload), pushes `rdtsc() - timestamp - mul(init, NUM_MUL)` (wrapping `u64`
arithmetic, fresh cycle read `curr2`), removes the step state and decrements
`outstanding`.  Otherwise it re-sends a get carrying bytes `0..30` of the
payload (panics when the payload is shorter) under the same stamp and
increments the step counter (a `u8`). -/
def recvGetNative (s : PushbackRecvSend) (stamp tenant : Nat) (payload : List Nat)
    (curr2 : Nat) : Option PushbackRecvSend :=
  match lookupKey stamp s.native_state with
  | none => none
  | some count =>
    if count = NUM_OPS then
      match payload with
      | [] => none
      | init :: _ =>
        some { s with
          recvd := s.recvd + 1,
          latencies := s.latencies ++ [u64sub (u64sub curr2 stamp) (mul init NUM_MUL)],
          native_state := eraseKey stamp s.native_state,
          outstanding := u64sub s.outstanding 1,
          inflight := s.inflight.erase stamp }
    else
      if payload.length < 30 then none
      else some { s with native_state := updateKey stamp (fun c => (c + 1) % 256) s.native_state }

/-- The bookkeeping at the boundaries of `PushbackRecvSend::recv`: on entry,
once `responses <= recvd`, the flag `finished` is set; after draining a batch
the same condition stores the stop timestamp. -/
def recvMark (s : PushbackRecvSend) : PushbackRecvSend :=
  if s.responses ≤ s.recvd then
    { s with finished := true, stop := s.clock, clock := s.clock + 1 }
  else s

/-- PushbackRecvSend::execute_task.  Pops at most one task from the head of
the runnable queue and resumes it; the resumption outcome and measured time
are produced by `TaskManager::execute_task`, which lives outside the embedded
sources and is passed here as the arguments `outcome` and `time` (modelled
from the spec, section 4.5: on WAITING the task has issued a follow-up get
stamped with a new cycle count, which becomes its id).  A YIELDED task is
re-enqueued at the tail; a WAITING task is re-inserted into the pending map
under its new id; a COMPLETED task is dropped, and — only when the crate is
built with the "execution" feature (`cfg!(feature = "execution")`) — the cycle
accounting is updated and `pushback_completed` wraps (with a report) at
100000. -/
def execute_task (s : PushbackRecvSend) (outcome : TaskState) (time : Nat) :
    PushbackRecvSend :=
  match s.waiting with
  | [] => s
  | m :: rest =>
    match outcome with
    | TaskState.YIELDED => { s with waiting := rest ++ [m] }
    | TaskState.WAITING =>
      let m' := { m with id := s.clock }
      { s with
        waiting := rest,
        manager := insertKey m'.id m' s.manager,
        clock := s.clock + 1 }
    | TaskState.COMPLETED =>
      if s.execution then
        { s with
          waiting := rest,
          cycle_total := s.cycle_total + time,
          cycle_count := s.cycle_count + 1,
          pushback_completed :=
            if s.pushback_completed + 1 = 100000 then 0 else s.pushback_completed + 1 }
      else { s with waiting := rest }

/-- One atomic step of the per-core loop, as driven by `Executable::execute`
(`send(); recv(); execute_task();`).  `recv` handles each delivered packet in
turn, so it is split into one step per packet plus the boundary bookkeeping.
Terminal responses (invoke responses, and native get responses) are
constrained to answer a still-in-flight request — the closed-loop reading of
the benchmark, in which every response echoes the stamp of a previously sent
request and every request is answered at most once (spec section 3: the stamp
is the identity of the request).  Get and put responses in invoke mode (the
follow-up traffic of pushed-back tasks) and unknown opcodes are
unconstrained. -/
inductive LoopStep : PushbackRecvSend → PushbackRecvSend → Prop
  | sendPhase (s : PushbackRecvSend) : LoopStep s (send s)
  | invokeOk (s : PushbackRecvSend) (stamp curr : Nat)
      (hn : s.native = false) (hs : stamp ∈ s.inflight) :
      LoopStep s (recvInvokeOk s stamp curr)
  | invokePushback (s : PushbackRecvSend) (stamp : Nat) (records : List Nat) (curr2 : Nat)
      (hn : s.native = false) (hs : stamp ∈ s.inflight) :
      LoopStep s (recvInvokePushback s stamp records curr2)
  | invokeOtherStatus (s : PushbackRecvSend) (hn : s.native = false) : LoopStep s s
  | getInvoke (s : PushbackRecvSend) (stamp curr : Nat) (hn : s.native = false) :
      LoopStep s (recvGetInvoke s stamp curr)
  | putInvoke (s : PushbackRecvSend) (stamp curr : Nat) (hn : s.native = false) :
      LoopStep s (recvPutInvoke s stamp curr)
  | getNative (s s' : PushbackRecvSend) (stamp tenant : Nat) (payload : List Nat) (curr2 : Nat)
      (hn : s.native = true) (hs : stamp ∈ s.inflight)
      (h : recvGetNative s stamp tenant payload curr2 = some s') :
      LoopStep s s'
  | freeUnknown (s : PushbackRecvSend) : LoopStep s s
  | taskStep (s : PushbackRecvSend) (outcome : TaskState) (time : Nat) :
      LoopStep s (execute_task s outcome time)
  | mark (s : PushbackRecvSend) : LoopStep s (recvMark s)

/-- States reachable from `init` by the per-core loop. -/
inductive LoopReachable (init : PushbackRecvSend) : PushbackRecvSend → Prop
  | refl : LoopReachable init init
  | step {s s' : PushbackRecvSend} :
      LoopReachable init s → LoopStep s s' → LoopReachable init s'

/-- The inductive invariant of the per-core loop: the mode flag is fixed; the
`outstanding` counter equals the number of in-flight stamps and stays at or
below the window of 32; in native mode the in-flight stamps are exactly the
keys of `native_state`; stamps are drawn from the past of the cycle clock; and
the latency vector carries one sample per terminal response (`recvd`) plus one
per invoke-mode get/put response (`followups`), of which native mode has
none. -/
def LoopInv (nv : Bool) (s : PushbackRecvSend) : Prop :=
  s.native = nv ∧
  s.outstanding = s.inflight.length ∧
  s.outstanding ≤ 32 ∧
  (s.native = true → s.inflight = s.native_state.map Prod.fst) ∧
  (∀ x ∈ s.inflight, x < s.clock) ∧
  s.latencies.length = s.recvd + s.followups ∧
  (s.native = true → s.followups = 0)

/-- The packet model used by `RequestGenerator::fixup_header_length_fields` in
`src/db/src/bin/client/main.rs`: the 16-bit UDP length field, the 16-bit IPv4
total-length field, and the bytes that follow the UDP header (the RPC
payload). -/
structure UdpPacketModel where
  udp_length : Nat
  ip_length : Nat
  payload : List Nat
deriving DecidableEq

/-- RequestGenerator::fixup_header_length_fields:
`let udp_len = (size_of::<UdpHeader>() + request.get_payload().len()) as u16;`
(= `8 + payload.len()` cast to `u16`), written to the UDP header, then after
`deparse_header` the IP total length is set to
`size_of::<IpHeader>() as u16 + udp_len` (= `20 + udp_len` at `u16`). -/
def fixup_header_length_fields (request : UdpPacketModel) : UdpPacketModel :=
  let udp_len := (8 + request.payload.length) % 65536
  { request with
    udp_length := udp_len,
    ip_length := (20 + udp_len) % 65536 }

/-- The statistics computed by `impl Drop for PushbackRecvSend` on the master
thread: sort the latency vector, read the tail latency at index
`(len * 99) / 100`, and compute `m` by the parity of `len`: for even `len`
average the elements at indices `len / 2` and `len / 2 + 1`, otherwise take
the element at `len / 2`.  Out-of-range indexing (a `Vec` index panic) is
modelled by `none`.  Returns `(m, t)`. -/
def dropStats (latencies : List Nat) : Option (Nat × Nat) :=
  let l := List.insertionSort (· ≤ ·) latencies
  let n := l.length
  match l[(n * 99) / 100]? with
  | none => none
  | some t =>
    if n % 2 = 0 then
      match l[n / 2]?, l[n / 2 + 1]? with
      | some a, some b => some ((a + b) / 2, t)
      | _, _ => none
    else
      match l[n / 2]? with
      | some m => some (m, t)
      | none => none

/-- A concrete five-step trace of the per-core loop in invoke mode with
`requests = 1` and a response target of 2: the send phase, a pushback response
for stamp 0, a local step whose task goes WAITING (re-filed under the fresh
stamp 32), the follow-up get response for stamp 32, and the OK response for
stamp 1.  Used to exhibit a terminal state of the loop. -/
def c3Trace : PushbackRecvSend :=
  recvInvokeOk
    (recvGetInvoke
      (execute_task (recvInvokePushback (send (initState 1 2 false false)) 0 [] 100)
        TaskState.WAITING 5)
      32 200)
    1 300

theorem lookupKey_eq_none_of_not_mem {α : Type} {k : Nat} {l : List (Nat × α)}
    (h : k ∉ l.map Prod.fst) : lookupKey k l = none := by
  induction l with
  | nil => rfl
  | cons p rest ih =>
    obtain ⟨k', v⟩ := p
    simp only [List.map_cons, List.mem_cons, not_or] at h
    simp only [lookupKey, if_neg h.1]
    exact ih h.2

theorem mem_mapfst_of_lookupKey_eq_some {α : Type} {k : Nat} {v : α} {l : List (Nat × α)}
    (h : lookupKey k l = some v) : k ∈ l.map Prod.fst := by
  induction l with
  | nil => simp [lookupKey] at h
  | cons p rest ih =>
    obtain ⟨k', w⟩ := p
    by_cases hk : k = k'
    · subst hk; simp
    · simp only [lookupKey, if_neg hk] at h
      simp [ih h]

theorem mapfst_eraseKey {α : Type} (k : Nat) (l : List (Nat × α)) :
    (eraseKey k l).map Prod.fst = (l.map Prod.fst).erase k := by
  induction l with
  | nil => rfl
  | cons p rest ih =>
    obtain ⟨k', v⟩ := p
    by_cases hk : k = k'
    · subst hk
      simp [eraseKey, List.erase_cons]
    · have hk2 : ¬(k' = k) := fun hx => hk hx.symm
      simp [eraseKey, hk, List.erase_cons, hk2, ih]

theorem mapfst_updateKey {α : Type} (k : Nat) (f : α → α) (l : List (Nat × α)) :
    (updateKey k f l).map Prod.fst = l.map Prod.fst := by
  induction l with
  | nil => rfl
  | cons p rest ih =>
    obtain ⟨k', v⟩ := p
    by_cases hk : k = k' <;> simp [updateKey, hk, ih]

theorem u64sub_one {o : Nat} (h1 : 1 ≤ o) (h2 : o ≤ 32) : u64sub o 1 = o - 1 := by
  unfold u64sub; omega

theorem u64sub_of_le {a b : Nat} (h : b ≤ a) (h2 : a < 18446744073709551616) :
    u64sub a b = a - b := by
  unfold u64sub; omega

theorem sendOne_fields (s : PushbackRecvSend) :
    (sendOne s).outstanding = s.outstanding + 1 ∧
    (sendOne s).sent = s.sent + 1 ∧
    (sendOne s).requests = s.requests ∧
    (sendOne s).native = s.native ∧
    (sendOne s).clock = s.clock + 1 ∧
    (sendOne s).inflight = s.clock :: s.inflight := by
  cases hn : s.native <;> simp [sendOne, hn]

theorem sendLoop_spec : ∀ (gap : Nat) (s : PushbackRecvSend),
    s.outstanding + gap = 32 →
    (sendLoop gap s).outstanding = 32 ∧ (sendLoop gap s).sent = s.sent + gap
  | 0, s, h => by simp only [sendLoop]; omega
  | gap + 1, s, h => by
    have hlt : s.outstanding < 32 := by omega
    simp only [sendLoop, if_pos hlt]
    have hf := sendOne_fields s
    have hrec := sendLoop_spec gap (sendOne s) (by omega)
    refine ⟨hrec.1, ?_⟩
    omega

theorem inv_sendOne {nv : Bool} {s : PushbackRecvSend}
    (h : LoopInv nv s) (ho : s.outstanding < 32) : LoopInv nv (sendOne s) := by
  obtain ⟨h1, h2, h3, h4, h5, h6, h7⟩ := h
  cases hn : s.native
  · refine ⟨?_, ?_, ?_, ?_, ?_, ?_, ?_⟩ <;>
      simp only [sendOne, hn, Bool.false_eq_true, if_false, List.length_cons]
    · exact hn ▸ h1
    · omega
    · omega
    · intro hx; exact hx.elim
    · intro x hx
      rcases List.mem_cons.1 hx with hx | hx
      · omega
      · exact Nat.lt_succ_of_lt (h5 x hx)
    · exact h6
    · intro hx; exact hx.elim
  · have hfresh : lookupKey s.clock s.native_state = none := by
      apply lookupKey_eq_none_of_not_mem
      intro hmem
      have : s.clock ∈ s.inflight := by rw [h4 hn]; exact hmem
      exact absurd (h5 _ this) (by omega)
    refine ⟨?_, ?_, ?_, ?_, ?_, ?_, ?_⟩ <;>
      simp only [sendOne, hn, if_true, List.length_cons]
    · exact hn ▸ h1
    · omega
    · omega
    · intro _
      simp only [orInsert, hfresh, List.map_cons]
      rw [h4 hn]
    · intro x hx
      rcases List.mem_cons.1 hx with hx | hx
      · omega
      · exact Nat.lt_succ_of_lt (h5 x hx)
    · exact h6
    · intro _; exact h7 hn

theorem inv_sendLoop {nv : Bool} : ∀ (gap : Nat) (s : PushbackRecvSend),
    LoopInv nv s → LoopInv nv (sendLoop gap s)
  | 0, _, h => h
  | gap + 1, s, h => by
    simp only [sendLoop]
    split
    next hlt => exact inv_sendLoop gap _ (inv_sendOne h hlt)
    next => exact h

theorem inv_send {nv : Bool} {s : PushbackRecvSend} (h : LoopInv nv s) :
    LoopInv nv (send s) := by
  unfold send
  split
  · exact h
  · exact inv_sendLoop _ _ h

theorem inv_recvInvokeOk {nv : Bool} {s : PushbackRecvSend} {stamp curr : Nat}
    (h : LoopInv nv s) (hn : s.native = false) (hs : stamp ∈ s.inflight) :
    LoopInv nv (recvInvokeOk s stamp curr) := by
  obtain ⟨h1, h2, h3, h4, h5, h6, h7⟩ := h
  have hpos : 0 < s.inflight.length := List.length_pos_of_mem hs
  have hdec : u64sub s.outstanding 1 = s.outstanding - 1 := u64sub_one (by omega) h3
  refine ⟨?_, ?_, ?_, ?_, ?_, ?_, ?_⟩ <;>
    simp only [recvInvokeOk, List.length_append, List.length_cons, List.length_nil]
  · exact h1
  · rw [hdec, List.length_erase_of_mem hs]; omega
  · rw [hdec]; omega
  · intro hx; rw [hn] at hx; exact Bool.noConfusion hx
  · intro x hx; exact h5 x (List.mem_of_mem_erase hx)
  · omega
  · intro hx; rw [hn] at hx; exact Bool.noConfusion hx

theorem inv_recvInvokePushback {nv : Bool} {s : PushbackRecvSend} {stamp : Nat}
    {records : List Nat} {curr2 : Nat}
    (h : LoopInv nv s) (hn : s.native = false) (hs : stamp ∈ s.inflight) :
    LoopInv nv (recvInvokePushback s stamp records curr2) := by
  obtain ⟨h1, h2, h3, h4, h5, h6, h7⟩ := h
  have hpos : 0 < s.inflight.length := List.length_pos_of_mem hs
  have hdec : u64sub s.outstanding 1 = s.outstanding - 1 := u64sub_one (by omega) h3
  cases hm : lookupKey stamp s.manager with
  | some m =>
    refine ⟨?_, ?_, ?_, ?_, ?_, ?_, ?_⟩ <;>
      simp only [recvInvokePushback, hm, List.length_append, List.length_cons,
        List.length_nil]
    · exact h1
    · rw [hdec, List.length_erase_of_mem hs]; omega
    · rw [hdec]; omega
    · intro hx; rw [hn] at hx; exact Bool.noConfusion hx
    · intro x hx; exact h5 x (List.mem_of_mem_erase hx)
    · omega
    · intro hx; rw [hn] at hx; exact Bool.noConfusion hx
  | none =>
    refine ⟨?_, ?_, ?_, ?_, ?_, ?_, ?_⟩ <;>
      simp only [recvInvokePushback, hm, List.length_append, List.length_cons,
        List.length_nil]
    · exact h1
    · rw [hdec, List.length_erase_of_mem hs]; omega
    · rw [hdec]; omega
    · intro hx; rw [hn] at hx; exact Bool.noConfusion hx
    · intro x hx; exact h5 x (List.mem_of_mem_erase hx)
    · omega
    · intro hx; rw [hn] at hx; exact Bool.noConfusion hx

theorem inv_recvGetInvoke {nv : Bool} {s : PushbackRecvSend} {stamp curr : Nat}
    (h : LoopInv nv s) (hn : s.native = false) :
    LoopInv nv (recvGetInvoke s stamp curr) := by
  obtain ⟨h1, h2, h3, h4, h5, h6, h7⟩ := h
  cases hm : lookupKey stamp s.manager with
  | some m =>
    refine ⟨?_, ?_, ?_, ?_, ?_, ?_, ?_⟩ <;>
      simp only [recvGetInvoke, hm, List.length_append, List.length_cons, List.length_nil]
    · exact h1
    · exact h2
    · exact h3
    · intro hx; rw [hn] at hx; exact Bool.noConfusion hx
    · intro x hx; exact h5 x hx
    · omega
    · intro hx; rw [hn] at hx; exact Bool.noConfusion hx
  | none =>
    refine ⟨?_, ?_, ?_, ?_, ?_, ?_, ?_⟩ <;>
      simp only [recvGetInvoke, hm, List.length_append, List.length_cons, List.length_nil]
    · exact h1
    · exact h2
    · exact h3
    · intro hx; rw [hn] at hx; exact Bool.noConfusion hx
    · intro x hx; exact h5 x hx
    · omega
    · intro hx; rw [hn] at hx; exact Bool.noConfusion hx

theorem inv_recvPutInvoke {nv : Bool} {s : PushbackRecvSend} {stamp curr : Nat}
    (h : LoopInv nv s) (hn : s.native = false) :
    LoopInv nv (recvPutInvoke s stamp curr) := by
  obtain ⟨h1, h2, h3, h4, h5, h6, h7⟩ := h
  refine ⟨?_, ?_, ?_, ?_, ?_, ?_, ?_⟩ <;>
    simp only [recvPutInvoke, List.length_append, List.length_cons, List.length_nil]
  · exact h1
  · exact h2
  · exact h3
  · intro hx; rw [hn] at hx; exact Bool.noConfusion hx
  · intro x hx; exact h5 x hx
  · omega
  · intro hx; rw [hn] at hx; exact Bool.noConfusion hx

theorem inv_recvGetNative {nv : Bool} {s s' : PushbackRecvSend} {stamp tenant curr2 : Nat}
    {payload : List Nat}
    (h : LoopInv nv s) (hn : s.native = true) (hs : stamp ∈ s.inflight)
    (he : recvGetNative s stamp tenant payload curr2 = some s') : LoopInv nv s' := by
  obtain ⟨h1, h2, h3, h4, h5, h6, h7⟩ := h
  unfold recvGetNative at he
  split at he
  · exact Option.noConfusion he
  · split at he
    · split at he
      · exact Option.noConfusion he
      · rename_i count hl hc init rest
        injection he with he
        subst he
        have hpos : 0 < s.inflight.length := List.length_pos_of_mem hs
        have hdec : u64sub s.outstanding 1 = s.outstanding - 1 := u64sub_one (by omega) h3
        refine ⟨?_, ?_, ?_, ?_, ?_, ?_, ?_⟩ <;>
          simp only [List.length_append, List.length_cons, List.length_nil]
        · exact h1
        · rw [hdec, List.length_erase_of_mem hs]; omega
        · rw [hdec]; omega
        · intro _; rw [mapfst_eraseKey, h4 hn]
        · intro x hx; exact h5 x (List.mem_of_mem_erase hx)
        · omega
        · intro _; exact h7 hn
    · split at he
      · exact Option.noConfusion he
      · injection he with he
        subst he
        refine ⟨h1, h2, h3, ?_, h5, h6, h7⟩
        intro hx
        rw [mapfst_updateKey]
        exact h4 hx

theorem inv_execute_task {nv : Bool} {s : PushbackRecvSend} {outcome : TaskState}
    {time : Nat} (h : LoopInv nv s) : LoopInv nv (execute_task s outcome time) := by
  obtain ⟨h1, h2, h3, h4, h5, h6, h7⟩ := h
  unfold execute_task
  split
  · exact ⟨h1, h2, h3, h4, h5, h6, h7⟩
  · split
    · exact ⟨h1, h2, h3, h4, h5, h6, h7⟩
    · refine ⟨h1, h2, h3, h4, ?_, h6, h7⟩
      intro x hx
      exact Nat.lt_succ_of_lt (h5 x hx)
    · split
      · exact ⟨h1, h2, h3, h4, h5, h6, h7⟩
      · exact ⟨h1, h2, h3, h4, h5, h6, h7⟩

theorem inv_recvMark {nv : Bool} {s : PushbackRecvSend} (h : LoopInv nv s) :
    LoopInv nv (recvMark s) := by
  obtain ⟨h1, h2, h3, h4, h5, h6, h7⟩ := h
  unfold recvMark
  split
  · refine ⟨h1, h2, h3, h4, ?_, h6, h7⟩
    intro x hx
    exact Nat.lt_succ_of_lt (h5 x hx)
  · exact ⟨h1, h2, h3, h4, h5, h6, h7⟩

theorem step_inv {nv : Bool} {s s' : PushbackRecvSend}
    (h : LoopInv nv s) (hs : LoopStep s s') : LoopInv nv s' := by
  cases hs with
  | sendPhase => exact inv_send h
  | invokeOk stamp curr hn hmem => exact inv_recvInvokeOk h hn hmem
  | invokePushback stamp records curr2 hn hmem => exact inv_recvInvokePushback h hn hmem
  | invokeOtherStatus hn => exact h
  | getInvoke stamp curr hn => exact inv_recvGetInvoke h hn
  | putInvoke stamp curr hn => exact inv_recvPutInvoke h hn
  | getNative s2 stamp tenant payload curr2 hn hmem he => exact inv_recvGetNative h hn hmem he
  | freeUnknown => exact h
  | taskStep outcome time => exact inv_execute_task h
  | mark => exact inv_recvMark h

theorem reachable_inv {nv : Bool} {init s : PushbackRecvSend}
    (h0 : LoopInv nv init) (h : LoopReachable init s) : LoopInv nv s := by
  induction h with
  | refl => exact h0
  | step _ hs ih => exact step_inv ih hs

theorem inv_initState (requests responses : Nat) (native execution : Bool) :
    LoopInv native (initState requests responses native execution) := by
  refine ⟨rfl, rfl, Nat.zero_le 32, ?_, ?_, rfl, ?_⟩
  · intro _; rfl
  · intro x hx; exact absurd hx (List.not_mem_nil x)
  · intro _; rfl


/-- C1 (counterexample): with `requests = 1` and an idle window, a single
invocation of the send phase transmits 32 requests, so the total sent exceeds
the configured target.  The entry guard `if self.requests <= self.sent` is
checked once per invocation, not per loop iteration. -/
theorem C1_send_overshoots_target :
    (send (initState 1 5 false false)).sent = 32 ∧
    ¬((send (initState 1 5 false false)).sent ≤ (initState 1 5 false false).requests) :=
  ⟨by decide, by decide⟩

/-- C1 (amended): an invocation of the send phase is a no-op when
`requests ≤ sent` on entry; otherwise it fills the outstanding window to
exactly 32, sending one request per unit of window (so `sent` and
`outstanding` increase by the same amount, once each per request), and `sent`
can exceed the target by at most 31. -/
theorem C1_send_phase (s : PushbackRecvSend) (h : s.outstanding ≤ 32) :
    (s.requests ≤ s.sent → send s = s) ∧
    (s.sent < s.requests →
      (send s).outstanding = 32 ∧
      (send s).sent = s.sent + (32 - s.outstanding) ∧
      (send s).sent - s.sent = (send s).outstanding - s.outstanding ∧
      (send s).sent ≤ s.requests + 31) := by
  constructor
  · intro hle
    unfold send
    rw [if_pos hle]
  · intro hlt
    have hng : ¬(s.requests ≤ s.sent) := by omega
    unfold send
    rw [if_neg hng]
    obtain ⟨hs1, hs2⟩ := sendLoop_spec (32 - s.outstanding) s (by omega)
    refine ⟨hs1, hs2, by omega, by omega⟩

/-- C1 (witness): the amended send-phase theorem applied at a concrete state. -/
theorem C1_send_phase_witness : (send (initState 40 9 false false)).outstanding = 32 :=
  ((C1_send_phase (initState 40 9 false false) (by decide)).2 (by decide)).1

/-- C2: along every run of the per-core loop (closed-loop network: terminal
responses answer still-in-flight requests), the `outstanding` counter never
exceeds the window of 32.  Since decrements are modelled with wrapping 64-bit
subtraction, the bound also shows no decrement ever happens at
`outstanding = 0` (which would wrap to `2^64 - 1`); as a `Nat` the counter is
trivially at least 0. -/
theorem C2_outstanding_window (requests responses : Nat) (native execution : Bool)
    (s : PushbackRecvSend)
    (h : LoopReachable (initState requests responses native execution) s) :
    s.outstanding ≤ 32 :=
  (reachable_inv (inv_initState requests responses native execution) h).2.2.1

/-- C2 (witness): the window bound at the state reached by one send phase. -/
theorem C2_outstanding_window_witness : (send (initState 5 9 false false)).outstanding ≤ 32 :=
  C2_outstanding_window 5 9 false false _
    (LoopReachable.step LoopReachable.refl (LoopStep.sendPhase _))

/-- C3 (counterexample): a reachable terminal state (`recvd` has reached the
response target of 2) whose latency vector has 3 samples: the follow-up get
response of a pushed-back task appends a latency sample without incrementing
`recvd`. -/
theorem C3_latency_count_mismatch :
    LoopReachable (initState 1 2 false false) c3Trace ∧
    c3Trace.responses ≤ c3Trace.recvd ∧
    c3Trace.latencies.length ≠ c3Trace.recvd := by
  refine ⟨?_, by decide, by decide⟩
  have t1 : LoopReachable (initState 1 2 false false) (send (initState 1 2 false false)) :=
    LoopReachable.step LoopReachable.refl (LoopStep.sendPhase _)
  have t2 := LoopReachable.step t1
    (LoopStep.invokePushback (send (initState 1 2 false false)) 0 [] 100 (by decide) (by decide))
  have t3 := LoopReachable.step t2 (LoopStep.taskStep _ TaskState.WAITING 5)
  have t4 := LoopReachable.step t3 (LoopStep.getInvoke _ 32 200 (by decide))
  exact LoopReachable.step t4 (LoopStep.invokeOk _ 1 300 (by decide) (by decide))

/-- C3 (amended): at every reachable state — in particular at termination —
the length of the latency vector equals `recvd` plus the number of get()/put()
responses processed in invoke mode (the ghost `followups` counter); in native
mode there are none of those, so the length equals `recvd` exactly. -/
theorem C3_latencies_account (requests responses : Nat) (native execution : Bool)
    (s : PushbackRecvSend)
    (h : LoopReachable (initState requests responses native execution) s) :
    s.latencies.length = s.recvd + s.followups ∧
    (native = true → s.latencies.length = s.recvd) := by
  obtain ⟨h1, _, _, _, _, h6, h7⟩ :=
    reachable_inv (inv_initState requests responses native execution) h
  refine ⟨h6, ?_⟩
  intro hnv
  rw [h6, h7 (h1.trans hnv)]
  omega

/-- C3 (witness): the latency accounting at the state reached by one native
send phase. -/
theorem C3_latencies_account_witness :
    (send (initState 3 7 true false)).latencies.length =
        (send (initState 3 7 true false)).recvd + (send (initState 3 7 true false)).followups ∧
    (true = true →
      (send (initState 3 7 true false)).latencies.length = (send (initState 3 7 true false)).recvd) :=
  C3_latencies_account 3 7 true false _
    (LoopReachable.step LoopReachable.refl (LoopStep.sendPhase _))

/-- C4 (counterexample): with a configured put percentage of 100 and a draw
`r = 0` (so `r % 100 = 0 < 100`), the claim predicts a put, but the workload
constructed by `PushbackRecvSend::new` draws a get: the constructor passes the
literal 0 instead of `config.put_pct`. -/
theorem C4_put_pct_ignored :
    isGetOp ((newWorkload ⟨30, 100, 1000, 100, 4⟩).abc 0 1 1) = true ∧
    ¬((⟨30, 100, 1000, 100, 4⟩ : ClientConfig).put_pct ≤ 0 % 100) :=
  ⟨by decide, by decide⟩

/-- C4 (amended): `Pushback::abc` draws a get exactly when the uniform draw
modulo 100 is at least the put percentage the instance was constructed with;
but `PushbackRecvSend::new` hard-codes that percentage to 0 (the configured
value is commented out), so every operation drawn by the client workload is a
get regardless of the configuration. -/
theorem C4_abc_get_probability :
    (∀ (w : Pushback) (r t k : Nat), isGetOp (w.abc r t k) = decide (w.put_pct ≤ r % 100)) ∧
    (∀ (config : ClientConfig) (r t k : Nat), isGetOp ((newWorkload config).abc r t k) = true) := by
  constructor
  · intro w r t k
    by_cases hp : w.put_pct ≤ r % 100 <;> simp [Pushback.abc, isGetOp, hp]
  · intro config r t k
    simp [newWorkload, Pushback.new, Pushback.abc, isGetOp]

/-- C5: in the native case, when the response for the final step arrives
(`count = NUM_OPS`), the step state is removed, `outstanding` is decremented,
and the recorded latency sample is the receive-time cycle count minus the send
stamp minus the synthetic cost `mul init NUM_MUL` of the `NUM_MUL = 1000`
multiplications the extension would have performed.  Stated for cycle values
where the `u64` arithmetic does not wrap. -/
theorem C5_native_final_step (s : PushbackRecvSend) (stamp tenant curr2 init : Nat)
    (rest : List Nat)
    (hl : lookupKey stamp s.native_state = some NUM_OPS)
    (ho1 : 1 ≤ s.outstanding) (ho2 : s.outstanding ≤ 32)
    (hc : stamp + mul init NUM_MUL ≤ curr2)
    (hw : curr2 < 18446744073709551616) :
    recvGetNative s stamp tenant (init :: rest) curr2 =
      some { s with
        recvd := s.recvd + 1,
        latencies := s.latencies ++ [curr2 - stamp - mul init NUM_MUL],
        native_state := eraseKey stamp s.native_state,
        outstanding := s.outstanding - 1,
        inflight := s.inflight.erase stamp } := by
  have hsub1 : u64sub curr2 stamp = curr2 - stamp := u64sub_of_le (by omega) hw
  have hsub2 : u64sub (curr2 - stamp) (mul init NUM_MUL) = curr2 - stamp - mul init NUM_MUL :=
    u64sub_of_le (by omega) (by omega)
  have hdec : u64sub s.outstanding 1 = s.outstanding - 1 := u64sub_one ho1 ho2
  simp [recvGetNative, hl, hsub1, hsub2, hdec]

/-- C5 (witness): the final-step theorem applied at a concrete state with one
pending native request. -/
theorem C5_native_final_step_witness :
    recvGetNative
      { initState 1 1 true false with native_state := [(3, 1)], outstanding := 1, inflight := [3] }
      3 1 [0] 5000 =
    some { initState 1 1 true false with
      recvd := 1, latencies := [4997], native_state := [], outstanding := 0, inflight := [] } :=
  (C5_native_final_step
      { initState 1 1 true false with native_state := [(3, 1)], outstanding := 1, inflight := [3] }
      3 1 5000 0 [] (by decide) (by decide) (by decide) (by decide) (by decide)).trans (by decide)

/-- C6 (counterexample): a pushback response whose stamp is missing from the
pending map does change the accounting state: `recvd` is incremented and a
latency sample is appended (and `outstanding` is decremented). -/
theorem C6_missing_stamp_changes_accounting :
    lookupKey 7 (initState 5 5 false false).manager = none ∧
    (recvInvokePushback (initState 5 5 false false) 7 [] 10).recvd ≠
      (initState 5 5 false false).recvd ∧
    (recvInvokePushback (initState 5 5 false false) 7 [] 10).latencies ≠
      (initState 5 5 false false).latencies :=
  ⟨by decide, by decide, by decide⟩

/-- C6 (amended): on a pushback response whose stamp has no entry in the
pending map, the client logs and does not crash, and enqueues no task (the
runnable queue and pending map are unchanged, as the right-hand side
inherits them from `s`); but it still appends a latency sample, decrements
`outstanding` (with 64-bit wrap-around when `outstanding = 0`) and increments
`recvd`. -/
theorem C6_missing_stamp_behaviour (s : PushbackRecvSend) (stamp : Nat)
    (records : List Nat) (curr2 : Nat)
    (h : lookupKey stamp s.manager = none) :
    recvInvokePushback s stamp records curr2 =
      { s with
        latencies := s.latencies ++ [u64sub curr2 stamp],
        outstanding := u64sub s.outstanding 1,
        recvd := s.recvd + 1,
        inflight := s.inflight.erase stamp } := by
  simp only [recvInvokePushback, h]

/-- C6 (witness): the missing-stamp behaviour at a concrete initial state;
note the wrapped decrement of `outstanding` from 0. -/
theorem C6_missing_stamp_witness :
    recvInvokePushback (initState 5 5 false false) 7 [] 10 =
      { initState 5 5 false false with
        latencies := [3], outstanding := 18446744073709551615, recvd := 1 } :=
  (C6_missing_stamp_behaviour (initState 5 5 false false) 7 [] 10 (by decide)).trans (by decide)

/-- C7 (code bug): the summary in `Drop` indexes the sorted latency vector at
`len / 2` and `len / 2 + 1` for even lengths.  At the two-sample vector
`[10, 20]` the second index is out of bounds (an indexing panic, `none`); at
`[0, 10, 20, 30]` the computed value `(20 + 30) / 2 = 25` averages the upper
two elements instead of the two middle ones (the median is 15).  The p99 index
`(len * 99) / 100` is in bounds and correct in both cases. -/
theorem C7_median_indexing_bug :
    dropStats [10, 20] = none ∧ dropStats [0, 10, 20, 30] = some (25, 30) :=
  ⟨by decide, by decide⟩

/-- C8: patching the header length fields sets the UDP length field to
`8 + udp_payload_len` and the IP total-length field to
`20 + 8 + udp_payload_len`, for every payload length that fits the 16-bit
fields (the code casts to `u16`). -/
theorem C8_fixup_lengths (request : UdpPacketModel)
    (h : request.payload.length + 28 < 65536) :
    (fixup_header_length_fields request).udp_length = 8 + request.payload.length ∧
    (fixup_header_length_fields request).ip_length = 20 + 8 + request.payload.length := by
  unfold fixup_header_length_fields
  constructor <;> simp <;> omega

/-- C8 (witness): the header-length contract at a 30-byte payload. -/
theorem C8_fixup_lengths_witness :
    (fixup_header_length_fields ⟨0, 0, List.replicate 30 0⟩).udp_length = 38 ∧
    (fixup_header_length_fields ⟨0, 0, List.replicate 30 0⟩).ip_length = 58 := by
  have h := C8_fixup_lengths ⟨0, 0, List.replicate 30 0⟩ (by decide)
  exact ⟨h.1.trans (by decide), h.2.trans (by decide)⟩

/-- C9 (counterexample): without the "execution" feature, a COMPLETED task is
popped and dropped but the cycle accounting and the completion counter stay
untouched, contradicting the claim that completion updates the accounting. -/
theorem C9_completed_no_accounting :
    (execute_task { initState 1 1 false false with waiting := [⟨5, true, []⟩] }
        TaskState.COMPLETED 7).waiting = [] ∧
    (execute_task { initState 1 1 false false with waiting := [⟨5, true, []⟩] }
        TaskState.COMPLETED 7).cycle_count = 0 ∧
    (execute_task { initState 1 1 false false with waiting := [⟨5, true, []⟩] }
        TaskState.COMPLETED 7).cycle_total = 0 ∧
    (execute_task { initState 1 1 false false with waiting := [⟨5, true, []⟩] }
        TaskState.COMPLETED 7).pushback_completed = 0 :=
  ⟨by decide, by decide, by decide, by decide⟩

/-- C9 (amended): `execute_task` pops at most one task from the head of the
runnable queue; a YIELDED task is re-enqueued at the tail; a WAITING task is
re-inserted into the pending map under a fresh cycle stamp that becomes its
id; a COMPLETED task is dropped, and the average completion-cycle accounting
(with its 100000-completion report/wrap) is updated only when the crate is
built with the "execution" feature. -/
theorem C9_execute_task_behaviour (s : PushbackRecvSend) (m : TaskManager)
    (rest : List TaskManager) (time : Nat) (h : s.waiting = m :: rest) :
    execute_task s TaskState.YIELDED time = { s with waiting := rest ++ [m] } ∧
    execute_task s TaskState.WAITING time =
      { s with
        waiting := rest,
        manager := insertKey s.clock { m with id := s.clock } s.manager,
        clock := s.clock + 1 } ∧
    (s.execution = true →
      execute_task s TaskState.COMPLETED time =
        { s with
          waiting := rest,
          cycle_total := s.cycle_total + time,
          cycle_count := s.cycle_count + 1,
          pushback_completed :=
            if s.pushback_completed + 1 = 100000 then 0 else s.pushback_completed + 1 }) ∧
    (s.execution = false →
      execute_task s TaskState.COMPLETED time = { s with waiting := rest }) := by
  refine ⟨?_, ?_, ?_, ?_⟩
  · simp only [execute_task, h]
  · simp only [execute_task, h]
  · intro hex; simp [execute_task, h, hex]
  · intro hex; simp [execute_task, h, hex]

/-- C9 (witness): the YIELDED case of the local-scheduling contract at a
concrete two-task queue. -/
theorem C9_execute_task_witness :
    execute_task { initState 1 1 false true with waiting := [⟨5, true, []⟩, ⟨6, false, []⟩] }
        TaskState.YIELDED 3 =
      { initState 1 1 false true with waiting := [⟨6, false, []⟩, ⟨5, true, []⟩] } :=
  ((C9_execute_task_behaviour
      { initState 1 1 false true with waiting := [⟨5, true, []⟩, ⟨6, false, []⟩] }
      ⟨5, true, []⟩ [⟨6, false, []⟩] 3 rfl).1).trans (by decide)

/-- C10: in native mode, a get response whose stamp is absent from the native
multi-GET state map makes the receive path panic on the `unwrap` (modelled by
`none`) instead of freeing and discarding the frame. -/
theorem C10_native_unwrap_panics (s : PushbackRecvSend) (stamp tenant : Nat)
    (payload : List Nat) (curr2 : Nat)
    (h : lookupKey stamp s.native_state = none) :
    recvGetNative s stamp tenant payload curr2 = none := by
  simp only [recvGetNative, h]

/-- C10 (witness): the panic branch is reachable — after the send phase and
the final response for stamp 0, a duplicate response for the same stamp finds
no entry and hits the `unwrap`. -/
theorem C10_native_unwrap_panics_witness :
    recvGetNative
      ((recvGetNative (send (initState 1 1 true false)) 0 1 [5] 500).getD
        (initState 1 1 true false))
      0 1 [5] 999 = none :=
  C10_native_unwrap_panics _ 0 1 [5] 999 (by decide)
